import Mathlib

/-
  Verification of the natural-language specification of bouthilx/track
  against a shallow embedding of src/track/client.py (TrackClient).

  The repository under src/ contains only the client facade
  (src/track/client.py).  The entity structures (Trial, Project,
  TrialGroup from track.structure), the Storage object and load_storage
  (track.persistence), and the Logger are not part of src/, so those
  parts are modelled from the spec (sections 3, 4.2 and 6); each such
  definition carries a doc comment starting with "Modelled from the
  spec:".  Everything in TrackClient itself (set_store, set_version,
  set_project, set_group, the attribute delegation of getattr) is a
  line-by-line translation of src/track/client.py.

  Conventions of the embedding:
  - Python object mutation is modelled by explicit state passing; the
    storage object table plays the role of the heap for registered
    objects, and mutations of registered objects are written back to it
    (emulating Python aliasing).
  - Raised exceptions are modelled by an Except value; operations that
    can raise return the client state they leave behind, so an error
    outcome still reports the (unchanged or partially updated) state.
  - Machine-level details that cannot appear in a shallow embedding
    (the hash of the calling code in default_version_hash, attribute
    tables of the logger and its backend) are parameters.
-/

set_option autoImplicit false

namespace Track

/-- Modelled from the spec: a Trial (track.structure, not in src/) is one
experiment run with a unique id, an optional owning project id, an optional
owning trial-group id and a version string.  Logged metrics and arguments
are not needed by any claim and are omitted. -/
structure Trial where
  uid : Nat
  project_id : Option Nat
  group_id : Option Nat
  version : Option String
  deriving DecidableEq

/-- Modelled from the spec: a Project (track.structure, not in src/) is a
named container of trials with a unique id, a name, tags, a description and
a set of trial-group ids. -/
structure Project where
  uid : Nat
  name : Option String
  tags : Option String
  description : Option String
  groups : List Nat
  deriving DecidableEq

/-- Modelled from the spec: a TrialGroup (track.structure, not in src/) is a
named sub-container within a project, with a unique id, a name, tags, a
description, an owning project id and an ordered list of trial ids. -/
structure TrialGroup where
  uid : Nat
  name : Option String
  tags : Option String
  description : Option String
  project_id : Option Nat
  trials : List Nat
  deriving DecidableEq

/-- An entity stored in the uid-indexed object table of the storage. -/
inductive Entity where
  | proj (p : Project)
  | group (g : TrialGroup)
  | trial (t : Trial)
  deriving DecidableEq

/-- The uid carried by an entity. -/
def entityUid : Entity → Nat
  | .proj p => p.uid
  | .group g => g.uid
  | .trial t => t.uid

/-- Errors raised by the client: RuntimeError in set_group, the two
AssertionError sites in set_project, KeyError or attribute access on a
missing storage during the group lookup loop, and AttributeError in the
attribute delegation. -/
inductive TrackError where
  | projectNotSet
  | projectNeedsName
  | indexInconsistent
  | storageUnavailable
  | attributeNotFound (item : String)
  deriving DecidableEq

/-- Modelled from the spec: the Storage (track.persistence.storage, not in
src/) maintains a uid-to-object table for all entities and a name-to-uid
index for projects, and remembers the URI it was loaded from. -/
structure Storage where
  uri : String
  objects : List (Nat × Entity)
  project_names : List (Option String × Nat)
  deriving DecidableEq

/-- Lookup in the uid-to-object table; first binding wins, so prepending a
binding has the overwrite semantics of a Python dict assignment. -/
def lookupTable : List (Nat × Entity) → Nat → Option Entity
  | [], _ => none
  | kv :: rest, u => if kv.1 = u then some kv.2 else lookupTable rest u

/-- Lookup in the project name index; first binding wins. -/
def lookupIndex : List (Option String × Nat) → Option String → Option Nat
  | [], _ => none
  | kv :: rest, n => if kv.1 = n then some kv.2 else lookupIndex rest n

/-- Well-formedness of a storage object table: every binding maps a uid to
an entity carrying that same uid. -/
def StorageWf (ds : Storage) : Prop :=
  ∀ kv ∈ ds.objects, entityUid kv.2 = kv.1

/-- Modelled from the spec: insert_project registers the project in the
object table and in the project name index.  The spec assigns uids on
insert, but set_group reads the uid of a TrialGroup that is never inserted,
so uids are modelled as handed out at construction (a fresh counter in the
client state) and insert only registers. -/
def insert_project (ds : Storage) (p : Project) : Storage :=
  { ds with
    objects := (p.uid, Entity.proj p) :: ds.objects,
    project_names := (p.name, p.uid) :: ds.project_names }

/-- Modelled from the spec: insert_trial registers the trial in the object
table. -/
def insert_trial (ds : Storage) (t : Trial) : Storage :=
  { ds with objects := (t.uid, Entity.trial t) :: ds.objects }

/-- Overwrite every binding of the given uid in the object table, emulating
Python aliasing: a mutation of an object is visible through the table. -/
def writeBack (ds : Storage) (u : Nat) (e : Entity) : Storage :=
  { ds with objects := ds.objects.map (fun kv => if kv.1 = u then (kv.1, e) else kv) }

/-- Modelled from the spec: load_storage (track.persistence, not in src/)
builds a file-backed storage from a file URI; modelled as an empty object
table and name index tagged with the URI it was loaded from. -/
def load_storage (uri : String) : Storage :=
  { uri := uri, objects := [], project_names := [] }

/-- Check that the pattern matches at the head of the character list. -/
def matchesAt : List Char → List Char → Bool
  | [], _ => true
  | _ :: _, [] => false
  | p :: ps, c :: cs => p = c && matchesAt ps cs

/-- Fuel-driven left-to-right non-overlapping replacement on character
lists, the semantics of the Python str.replace used by set_store.  The fuel
only bounds recursion depth; each step consumes at least one character, so
fuel equal to the length of the subject never runs out. -/
def pyReplaceFuel (pat rep : List Char) : Nat → List Char → List Char
  | 0, s => s
  | _ + 1, [] => []
  | fuel + 1, c :: rest =>
    if pat.length > 0 && matchesAt pat (c :: rest) then
      rep ++ pyReplaceFuel pat rep fuel (List.drop (pat.length - 1) rest)
    else
      c :: pyReplaceFuel pat rep fuel rest

/-- Python str.replace: replace every (leftmost, non-overlapping)
occurrence of pat in s by rep. -/
def pyReplace (s pat rep : String) : String :=
  String.mk (pyReplaceFuel pat.data rep.data s.data.length s.data)

/-- The state of a TrackClient (src/track/client.py): the current project,
the current group, the trial created at construction, the storage handle
and the storage protocol string.  nextUid is the modelled fresh-uid
counter (see insert_project).  The logger is an opaque collaborator and is
modelled separately for the attribute delegation. -/
structure TrackClient where
  nextUid : Nat
  project : Option Project
  group : Option TrialGroup
  trial : Trial
  data_store : Option Storage
  storage_protocol : String
  deriving DecidableEq

/-- Name resolution at the top of set_store: if name is None and a project
is set, the project name is used. -/
def effectiveName (s : TrackClient) (name : Option String) : Option String :=
  match name with
  | some n => some n
  | none =>
    match s.project with
    | some p => p.name
    | none => none

/-- Placeholder substitution in set_store: when a name is available, every
occurrence of the placeholder in the store string is replaced by it. -/
def effectiveStore (s : TrackClient) (store : String) (name : Option String) : String :=
  match effectiveName s name with
  | some nm => pyReplace store "${project}" nm
  | none => store

/-- TrackClient.set_store (src/track/client.py lines 51-61): substitute the
project placeholder, then load the storage only when no storage is set or
force is given. -/
def set_store (s : TrackClient) (store : String) (name : Option String) (force : Bool) :
    TrackClient :=
  let st := effectiveStore s store name
  if s.data_store.isNone || force then
    { s with data_store := some (load_storage st) }
  else
    s

/-- TrackClient.set_version (src/track/client.py lines 63-72).  The
version function argument and the default default_version_hash are
modelled by the strings they would return (a hash of the calling code is
not representable in a shallow embedding). -/
def set_version (s : TrackClient) (version : Option String) (version_fun : Option String)
    (default_hash : String) : TrackClient :=
  let vf := match version_fun with
    | none => default_hash
    | some f => f
  match version with
  | none => { s with trial := { s.trial with version := some vf } }
  | some v => { s with trial := { s.trial with version := some v } }

/-- TrackClient construction (src/track/client.py lines 26-49): no project,
no group, a fresh trial, no storage; set_version is called with no
arguments, stamping the trial with the default hash. -/
def initClient (storage_protocol : String) (default_hash : String) : TrackClient :=
  set_version
    { nextUid := 1, project := none, group := none,
      trial := { uid := 0, project_id := none, group_id := none, version := none },
      data_store := none, storage_protocol := storage_protocol }
    none none default_hash

/-- The project lookup of set_project (src/track/client.py lines 77-85):
when a name is given and the name index knows it, the project is fetched
from the object table; the assertion that the id is present in the index
but missing from the table is the indexInconsistent error (also used for
the unreachable case of a non-project entity under a project id). -/
def resolveProject (ds : Storage) (project? : Option Project) (name : Option String) :
    Except TrackError (Option Project) :=
  match name with
  | none => .ok project?
  | some nm =>
    match lookupIndex ds.project_names (some nm) with
    | none => .ok project?
    | some pid =>
      match lookupTable ds.objects pid with
      | some (Entity.proj p) => .ok (some p)
      | some _ => .error .indexInconsistent
      | none => .error .indexInconsistent

/-- The tail of set_project (src/track/client.py lines 93-98): point the
trial at the project, set the current project and register the trial. -/
def finishProject (s : TrackClient) (ds : Storage) (p : Project) :
    TrackClient × Except TrackError Project :=
  let t := { s.trial with project_id := some p.uid }
  ({ s with trial := t, project := some p, data_store := some (insert_trial ds t) },
   .ok p)

/-- TrackClient.set_project (src/track/client.py lines 74-98): set the
store, look the project up by name, create and register it when absent
(failing when no name was given either), then register the trial under
it. -/
def set_project (s0 : TrackClient) (project? : Option Project) (name : Option String)
    (tags description : Option String) : TrackClient × Except TrackError Project :=
  let s := set_store s0 s0.storage_protocol name false
  match s.data_store with
  | none => (s, .error .storageUnavailable)
  | some ds =>
    match resolveProject ds project? name with
    | .error e => (s, .error e)
    | .ok (some p) => finishProject s ds p
    | .ok none =>
      match name with
      | none => (s, .error .projectNeedsName)
      | some nm =>
        let p : Project := { uid := s.nextUid, name := some nm, tags := tags,
                             description := description, groups := [] }
        finishProject { s with nextUid := s.nextUid + 1 } (insert_project ds p) p

/-- The group lookup loop of set_group (src/track/client.py lines 104-108):
walk the group ids of the current project, keep the last group whose name
equals the requested one, starting from the explicitly passed group.  A
group id missing from the table is a KeyError, a non-group entity an
attribute failure, and touching the table with no storage set an attribute
access on None; all are error outcomes. -/
def findGroupByName (ds? : Option Storage) :
    List Nat → Option TrialGroup → Option String → Except TrackError (Option TrialGroup)
  | [], acc, _ => .ok acc
  | gid :: rest, acc, name =>
    match ds? with
    | none => .error .storageUnavailable
    | some ds =>
      match lookupTable ds.objects gid with
      | some (Entity.group g) =>
        findGroupByName ds? rest (if g.name = name then some g else acc) name
      | some _ => .error .indexInconsistent
      | none => .error .indexInconsistent

/-- Group selection in set_group (src/track/client.py lines 104-111): the
group found by the loop, or a freshly constructed TrialGroup when none was
found. -/
def chooseGroup (s : TrackClient) (proj : Project) (group? : Option TrialGroup)
    (name tags description : Option String) : Except TrackError (TrialGroup × TrackClient) :=
  match findGroupByName s.data_store proj.groups group? name with
  | .error e => .error e
  | .ok (some g) => .ok (g, s)
  | .ok none =>
    .ok ({ uid := s.nextUid, name := name, tags := tags, description := description,
           project_id := none, trials := [] },
         { s with nextUid := s.nextUid + 1 })

/-- The tail of set_group (src/track/client.py lines 113-119) on the
selected group g0: point the group at the project, point the trial at the
group, and append the trial uid to the trials list of the group.
Mutations of registered objects are written back to the object table
(Python aliasing); the mutated group becomes the current one. -/
def applyGroup (proj : Project) (g0 : TrialGroup) (s1 : TrackClient) :
    TrackClient × Except TrackError TrialGroup :=
  let g1 := { g0 with project_id := some proj.uid }
  let t := { s1.trial with group_id := some g1.uid }
  let g2 := { g1 with trials := g1.trials ++ [t.uid] }
  let ds2 := s1.data_store.map
    (fun ds => writeBack (writeBack ds g2.uid (Entity.group g2)) t.uid (Entity.trial t))
  ({ s1 with trial := t, group := some g2, data_store := ds2 }, .ok g2)

/-- TrackClient.set_group (src/track/client.py lines 100-119): require a
current project, select or create the group, then apply the group to the
client state.  Note that a newly created group is registered nowhere: it
is added neither to the group ids of the project nor to the storage. -/
def set_group (s : TrackClient) (group? : Option TrialGroup)
    (name tags description : Option String) : TrackClient × Except TrackError TrialGroup :=
  match s.project with
  | none => (s, .error .projectNotSet)
  | some proj =>
    match chooseGroup s proj group? name tags description with
    | .error e => (s, .error e)
    | .ok (g0, s1) => applyGroup proj g0 s1

/-- TrackClient attribute delegation (src/track/client.py lines 137-153,
the getattr fallback): an attribute not defined on the client resolves to
the logger attribute when the logger has it, else to the backend attribute
when the backend has it, else raises AttributeError with the item name.
The attribute tables of the logger and of its backend are opaque
collaborators, modelled as partial maps from attribute names to values. -/
def getattr {α : Type} (logger backend : String → Option α) (item : String) :
    Except TrackError α :=
  match logger item with
  | some v => .ok v
  | none =>
    match backend item with
    | some v => .ok v
    | none => .error (.attributeNotFound item)

/-- Repeated set_group calls passing the returned group back in explicitly,
with no name: the n-fold iteration used to state the duplicate-append
behaviour. -/
def iterGroup : Nat → TrackClient → TrialGroup → TrackClient × TrialGroup
  | 0, s, g => (s, g)
  | n + 1, s, g =>
    match set_group s (some g) none none none with
    | (s1, .ok g1) => iterGroup n s1 g1
    | (s1, .error _) => (s1, g)



/-- A set_store call with no storage set loads a storage from the substituted store string. -/
lemma set_store_loads {s : TrackClient} {store : String} {name : Option String}
    (h : s.data_store = none) :
    set_store s store name false =
      { s with data_store := some (load_storage (effectiveStore s store name)) } := by
  simp [set_store, h]

/-- A set_store call without force on a client that already has a storage is a no-op. -/
lemma set_store_keeps {s : TrackClient} {store : String} {name : Option String} {d : Storage}
    (h : s.data_store = some d) :
    set_store s store name false = s := by
  simp [set_store, h]

/-- C3: on every client on which no project has been set, set_group raises the documented RuntimeError, and the client state (trial, group, project and all other fields) is unchanged by the failed call. -/
theorem set_group_without_project_raises (s : TrackClient) (group? : Option TrialGroup)
    (name tags description : Option String) (h : s.project = none) :
    set_group s group? name tags description = (s, .error .projectNotSet) := by
  simp [set_group, h]

/-- A freshly constructed client used by the witnesses. -/
def wA : TrackClient := initClient "x" "v0"

/-- Witness for C3 at a freshly constructed client. -/
theorem set_group_without_project_raises_witness :
    wA.project = none ∧
    set_group wA none (some "g") none none = (wA, .error .projectNotSet) :=
  ⟨rfl, set_group_without_project_raises wA none (some "g") none none rfl⟩

/-- C5: every call to set_project with name None and no project object fails with the assertion error demanding a unique name instead of creating a project; the current project of the client is untouched. -/
theorem set_project_without_name_raises (s : TrackClient) (tags description : Option String) :
    (set_project s none none tags description).2 = .error .projectNeedsName ∧
    (set_project s none none tags description).1.project = s.project := by
  cases hds : s.data_store with
  | none =>
    rw [set_project, set_store_loads hds]
    simp [resolveProject]
  | some d =>
    rw [set_project, set_store_keeps hds, hds]
    simp [resolveProject]

/-- C7: set_version with an explicit version stamps the trial with exactly that string; without one it stamps the trial with the result of the supplied version function, defaulting to the default version hash derived from the calling code (a parameter of the model). -/
theorem set_version_stamps (s : TrackClient) (dvh : String) :
    (∀ v vf, (set_version s (some v) vf dvh).trial.version = some v) ∧
    (∀ f, (set_version s none (some f) dvh).trial.version = some f) ∧
    (set_version s none none dvh).trial.version = some dvh := by
  refine ⟨fun v vf => ?_, fun f => ?_, ?_⟩ <;> simp [set_version]

/-- C8: when the data_store of the client is already set, set_store with force left at its default False leaves the client (in particular its data_store) unchanged; a storage is loaded whenever data_store is None or force is given. -/
theorem set_store_frame (s : TrackClient) (store : String) (name : Option String) :
    (∀ d, s.data_store = some d → set_store s store name false = s) ∧
    (∀ force : Bool, (s.data_store = none ∨ force = true) →
      ∃ uri, (set_store s store name force).data_store = some (load_storage uri)) := by
  constructor
  · intro d hd
    exact set_store_keeps hd
  · intro force h
    refine ⟨effectiveStore s store name, ?_⟩
    rcases h with h | h <;> simp [set_store, h]



instance {α β : Type} [DecidableEq α] [DecidableEq β] : DecidableEq (Except α β) := fun x y =>
  match x, y with
  | .ok a, .ok b => if h : a = b then .isTrue (by rw [h]) else .isFalse (by simp [h])
  | .error a, .error b => if h : a = b then .isTrue (by rw [h]) else .isFalse (by simp [h])
  | .ok _, .error _ => .isFalse (by simp)
  | .error _, .ok _ => .isFalse (by simp)

/-- Result of a first set_project call on the fresh client. -/
def wAres : TrackClient × Except TrackError Project := set_project wA none (some "p") none none

/-- Client state after the first set_project call. -/
def wA1 : TrackClient := wAres.1

/-- The project returned by the first set_project call. -/
def wAp : Project :=
  match wAres.2 with
  | .ok p => p
  | .error _ => { uid := 0, name := none, tags := none, description := none, groups := [] }

/-- The storage held by the client after the first set_project call. -/
def wAds : Storage :=
  match wA1.data_store with
  | some d => d
  | none => load_storage ""

/-- Witness for C8: the no-op case on a client that has a storage, and the loading case on a fresh client. -/
theorem set_store_frame_witness :
    wA1.data_store = some wAds ∧ set_store wA1 "y" none false = wA1 ∧
    (wA.data_store = none ∨ false = true) ∧
    (∃ uri, (set_store wA "y" none false).data_store = some (load_storage uri)) :=
  ⟨by decide, (set_store_frame wA1 "y" none).1 wAds (by decide),
   Or.inl rfl, (set_store_frame wA "y" none).2 false (Or.inl rfl)⟩

/-- C6: for every set_store call that loads (no storage yet, or force), when a project name is available (passed explicitly, or taken from the current project) every occurrence of the placeholder in the store string is replaced by that name before the storage is loaded, and when no name is available the store string is passed through unmodified. -/
theorem set_store_substitutes (s : TrackClient) (store : String) (force : Bool)
    (hload : s.data_store = none ∨ force = true) :
    (∀ nm, (set_store s store (some nm) force).data_store =
      some (load_storage (pyReplace store "${project}" nm))) ∧
    (∀ p nm, s.project = some p → p.name = some nm →
      (set_store s store none force).data_store =
      some (load_storage (pyReplace store "${project}" nm))) ∧
    ((∀ p, s.project = some p → p.name = none) →
      (set_store s store none force).data_store = some (load_storage store)) := by
  have hcond : (s.data_store.isNone || force) = true := by
    rcases hload with h | h <;> simp [h]
  refine ⟨fun nm => ?_, fun p nm hp hn => ?_, fun hnone => ?_⟩
  · simp [set_store, hcond, effectiveStore, effectiveName]
  · simp [set_store, hcond, effectiveStore, effectiveName, hp, hn]
  · cases hp : s.project with
    | none => simp [set_store, hcond, effectiveStore, effectiveName, hp]
    | some p => simp [set_store, hcond, effectiveStore, effectiveName, hp, hnone p hp]

/-- Witness for C6 on a concrete store string with two occurrences of the placeholder, also evaluated to the literal result. -/
theorem set_store_substitutes_witness :
    (wA.data_store = none ∨ false = true) ∧
    (set_store wA "a${project}b${project}" (some "p") false).data_store =
      some (load_storage (pyReplace "a${project}b${project}" "${project}" "p")) ∧
    (set_store wA "a${project}b${project}" (some "p") false).data_store =
      some (load_storage "apbp") :=
  ⟨Or.inl rfl,
   (set_store_substitutes wA "a${project}b${project}" false (Or.inl rfl)).1 "p",
   by decide⟩

/-- C4: for every attribute item reaching the getattr fallback, the access resolves to the logger attribute when the logger has it, otherwise to the backend attribute when the backend has it, and raises AttributeError with the item name when neither exposes it. -/
theorem getattr_delegates (α : Type) (logger backend : String → Option α) (item : String) :
    (∀ v, logger item = some v → getattr logger backend item = .ok v) ∧
    (logger item = none → ∀ v, backend item = some v → getattr logger backend item = .ok v) ∧
    (logger item = none → backend item = none →
      getattr logger backend item = .error (.attributeNotFound item)) := by
  refine ⟨fun v hv => ?_, fun hl v hv => ?_, fun hl hb => ?_⟩ <;> simp [getattr, *]

/-- A concrete logger attribute table for the C4 witness. -/
def lgW : String → Option Nat := fun s => if s = "a" then some 1 else none

/-- A concrete backend attribute table for the C4 witness. -/
def bkW : String → Option Nat := fun s => if s = "b" then some 2 else none

/-- Witness for C4 on concrete logger and backend attribute tables. -/
theorem getattr_delegates_witness :
    lgW "a" = some 1 ∧ getattr lgW bkW "a" = Except.ok 1 ∧
    lgW "b" = none ∧ bkW "b" = some 2 ∧ getattr lgW bkW "b" = Except.ok 2 ∧
    lgW "c" = none ∧ bkW "c" = none ∧
    getattr lgW bkW "c" = Except.error (TrackError.attributeNotFound "c") :=
  ⟨by decide, (getattr_delegates Nat lgW bkW "a").1 1 (by decide),
   by decide, by decide, (getattr_delegates Nat lgW bkW "b").2.1 (by decide) 2 (by decide),
   by decide, by decide, (getattr_delegates Nat lgW bkW "c").2.2 (by decide) (by decide)⟩


/-- Group selection leaves the trial, the current project and the storage of the client unchanged (creation only bumps the uid counter). -/
lemma chooseGroup_state {s : TrackClient} {proj : Project} {group? : Option TrialGroup}
    {name tags description : Option String} {g0 : TrialGroup} {s1 : TrackClient}
    (h : chooseGroup s proj group? name tags description = .ok (g0, s1)) :
    s1.trial = s.trial ∧ s1.project = s.project ∧ s1.data_store = s.data_store := by
  unfold chooseGroup at h
  cases hf : findGroupByName s.data_store proj.groups group? name with
  | error e => rw [hf] at h; cases h
  | ok og =>
    rw [hf] at h
    cases og with
    | some g => cases h; exact ⟨rfl, rfl, rfl⟩
    | none => cases h; exact ⟨rfl, rfl, rfl⟩

/-- C9: every set_group call that creates a new group (the lookup over the group ids of the project found nothing) leaves the group ids of the current project unchanged, so the uid of the new group is not added to them, even though the project_id of the new group is set to the uid of the project. -/
theorem set_group_created_group_unregistered (s : TrackClient) (proj : Project)
    (group? : Option TrialGroup) (name tags description : Option String)
    (hp : s.project = some proj)
    (hnew : findGroupByName s.data_store proj.groups group? name = Except.ok none)
    (hfresh : s.nextUid ∉ proj.groups) :
    ∃ s1 g, set_group s group? name tags description = (s1, Except.ok g) ∧
      s1.project = some proj ∧ g.project_id = some proj.uid ∧ g.uid ∉ proj.groups := by
  have hchoose : chooseGroup s proj group? name tags description =
      .ok ({ uid := s.nextUid, name := name, tags := tags, description := description,
             project_id := none, trials := [] },
           { s with nextUid := s.nextUid + 1 }) := by
    unfold chooseGroup
    rw [hnew]
  have hset : set_group s group? name tags description =
      applyGroup proj
        { uid := s.nextUid, name := name, tags := tags, description := description,
          project_id := none, trials := [] }
        { s with nextUid := s.nextUid + 1 } := by
    unfold set_group
    simp only [hp, hchoose]
  rw [hset]
  exact ⟨_, _, rfl, hp, rfl, hfresh⟩

/-- Witness for C9: creating a group on the client produced by set_project. -/
theorem set_group_created_group_unregistered_witness :
    wA1.project = some wAp ∧
    findGroupByName wA1.data_store wAp.groups none (some "g") = Except.ok none ∧
    wA1.nextUid ∉ wAp.groups ∧
    ∃ s1 g, set_group wA1 none (some "g") none none = (s1, Except.ok g) ∧
      s1.project = some wAp ∧ g.project_id = some wAp.uid ∧ g.uid ∉ wAp.groups :=
  ⟨by decide, by decide, by decide,
   set_group_created_group_unregistered wA1 wAp none (some "g") none none
     (by decide) (by decide) (by decide)⟩


/-- One set_group call passing an explicit group, on a project with no registered group ids: the call succeeds and appends the trial uid to the trials list of the passed group. -/
lemma set_group_explicit_step {s : TrackClient} {proj : Project} (g : TrialGroup)
    (hp : s.project = some proj) (hge : proj.groups = []) :
    ∃ s2, set_group s (some g) none none none =
      (s2, Except.ok { g with
        project_id := some proj.uid,
        trials := g.trials ++ [s.trial.uid] }) ∧
      s2.project = s.project ∧ s2.trial.uid = s.trial.uid := by
  have hfind : findGroupByName s.data_store proj.groups (some g) none =
      Except.ok (some g) := by
    rw [hge]
    rfl
  have hchoose : chooseGroup s proj (some g) none none none = Except.ok (g, s) := by
    unfold chooseGroup
    rw [hfind]
  have hset : set_group s (some g) none none none = applyGroup proj g s := by
    unfold set_group
    simp only [hp, hchoose]
  rw [hset]
  exact ⟨_, rfl, rfl, rfl⟩

/-- C10: every successful set_group call (whether it found an existing group or created a new one) appends exactly the current trial uid to the trials list of the selected group, and n repeated calls referring to the same group append n copies of that trial uid, duplicates included. -/
theorem set_group_appends_trial_uid :
    (∀ s group? name tags description s1 g,
      set_group s group? name tags description = (s1, Except.ok g) →
      ∃ proj g0 s0, s.project = some proj ∧
        chooseGroup s proj group? name tags description = Except.ok (g0, s0) ∧
        g.trials = g0.trials ++ [s.trial.uid]) ∧
    (∀ n s proj g, s.project = some proj → proj.groups = [] →
      (iterGroup n s g).2.trials = g.trials ++ List.replicate n s.trial.uid) := by
  constructor
  · intro s group? name tags description s1 g h
    unfold set_group at h
    cases hp : s.project with
    | none => rw [hp] at h; simp at h
    | some proj =>
      rw [hp] at h
      simp only [] at h
      cases hc : chooseGroup s proj group? name tags description with
      | error e => rw [hc] at h; simp at h
      | ok gs =>
        obtain ⟨g0, s0⟩ := gs
        rw [hc] at h
        simp only [applyGroup] at h
        obtain ⟨ht, hpr, hdsx⟩ := chooseGroup_state hc
        injection h with h1 h2
        injection h2 with h2
        subst h2
        refine ⟨proj, g0, s0, rfl, hc, ?_⟩
        show g0.trials ++ [s0.trial.uid] = g0.trials ++ [s.trial.uid]
        rw [ht]
  · intro n
    induction n with
    | zero =>
      intro s proj g hp hge
      simp [iterGroup]
    | succ m ih =>
      intro s proj g hp hge
      obtain ⟨s2, hstep, hpr, htu⟩ := set_group_explicit_step g hp hge
      rw [iterGroup, hstep]
      simp only []
      rw [ih s2 proj _ (hpr.trans hp) hge]
      show (g.trials ++ [s.trial.uid]) ++ List.replicate m s2.trial.uid =
        g.trials ++ List.replicate (m + 1) s.trial.uid
      rw [htu]
      simp [List.replicate_succ]


/-- A concrete group passed explicitly in the C10 witness. -/
def wg : TrialGroup :=
  { uid := 42, name := some "h", tags := none, description := none,
    project_id := none, trials := [] }

/-- Result of set_group on the explicitly passed group. -/
def wgRes : TrackClient × Except TrackError TrialGroup :=
  set_group wA1 (some wg) none none none

/-- The group returned by set_group on the explicitly passed group. -/
def wg1 : TrialGroup :=
  match wgRes.2 with
  | .ok g => g
  | .error _ => wg

/-- Witness for C10: a single append on an explicitly passed group, and two iterated calls producing two duplicate entries. -/
theorem set_group_appends_trial_uid_witness :
    set_group wA1 (some wg) none none none = (wgRes.1, Except.ok wg1) ∧
    (∃ proj g0 s0, wA1.project = some proj ∧
      chooseGroup wA1 proj (some wg) none none none = Except.ok (g0, s0) ∧
      wg1.trials = g0.trials ++ [wA1.trial.uid]) ∧
    wA1.project = some wAp ∧ wAp.groups = [] ∧
    (iterGroup 2 wA1 wg).2.trials = wg.trials ++ List.replicate 2 wA1.trial.uid :=
  ⟨by decide,
   set_group_appends_trial_uid.1 wA1 (some wg) none none none wgRes.1 wg1 (by decide),
   by decide, by decide,
   set_group_appends_trial_uid.2 2 wA1 wAp wg (by decide) (by decide)⟩

/-- A fresh client with the default file storage protocol, the failing input of the TrialGroup uniqueness property. -/
def dC : TrackClient := initClient "file://${project}.json" "v0"

/-- Uids of the groups returned by two set_group calls with the same name after set_project on a fresh client. -/
def twoGroupUids : Option (Nat × Nat) :=
  match set_project dC none (some "p") none none with
  | (s1, Except.ok _) =>
    match set_group s1 none (some "g") none none with
    | (s2, Except.ok g1) =>
      match set_group s2 none (some "g") none none with
      | (_, Except.ok g2) => some (g1.uid, g2.uid)
      | _ => none
    | _ => none
  | _ => none

/-- C1: evaluation of the failing input of the TrialGroup uniqueness property. On a fresh client, after set_project, two set_group calls with the same group name return two distinct TrialGroups (uids 2 and 3): the group created by the first call is registered neither in the group ids of the project nor in the storage, so the lookup of the second call cannot find it and a second group is created, contradicting the specified get-or-create behaviour. -/
theorem set_group_same_name_two_groups :
    twoGroupUids = some (2, 3) ∧ (2 : Nat) ≠ 3 := by decide


/-- In a well-formed object table, a successful lookup returns an entity carrying the looked-up uid. -/
lemma lookupTable_wf {l : List (Nat × Entity)} (hwf : ∀ kv ∈ l, entityUid kv.2 = kv.1)
    {u : Nat} {e : Entity} (h : lookupTable l u = some e) : entityUid e = u := by
  induction l with
  | nil => simp [lookupTable] at h
  | cons kv rest ih =>
    simp only [lookupTable] at h
    by_cases hk : kv.1 = u
    · rw [if_pos hk] at h
      cases h
      rw [hwf kv (List.mem_cons_self kv rest)]
      exact hk
    · rw [if_neg hk] at h
      exact ih (fun x hx => hwf x (List.mem_cons_of_mem kv hx)) h

/-- A set_project call on a client whose storage resolves the name through the index to a project entity returns that project without creating anything. -/
lemma set_project_finds {s : TrackClient} {nm : String} {tg d : Option String}
    {ds : Storage} {u : Nat} {p : Project}
    (hds : s.data_store = some ds)
    (hidx : lookupIndex ds.project_names (some nm) = some u)
    (htab : lookupTable ds.objects u = some (Entity.proj p)) :
    ∃ s2, set_project s none (some nm) tg d = (s2, Except.ok p) := by
  unfold set_project
  rw [set_store_keeps hds]
  simp only [hds, resolveProject, hidx, htab, finishProject]
  exact ⟨_, rfl⟩

/-- After a successful set_project by name, the storage of the client resolves that name to the returned project: the name index maps it to the project uid and the object table holds the project under that uid. -/
lemma set_project_post {s : TrackClient} {nm : String} {tg d : Option String}
    {s1 : TrackClient} {p1 : Project}
    (hwf : ∀ ds, s.data_store = some ds → StorageWf ds)
    (h1 : set_project s none (some nm) tg d = (s1, Except.ok p1))
    (hu : s.trial.uid ≠ p1.uid) :
    ∃ ds1, s1.data_store = some ds1 ∧
      lookupIndex ds1.project_names (some nm) = some p1.uid ∧
      lookupTable ds1.objects p1.uid = some (Entity.proj p1) := by
  cases hds : s.data_store with
  | none =>
    unfold set_project at h1
    rw [set_store_loads hds] at h1
    simp only [resolveProject, lookupIndex, load_storage, finishProject,
      insert_project, insert_trial] at h1
    injection h1 with h1a h1b
    injection h1b with h1b
    subst h1a
    subst h1b
    refine ⟨_, rfl, ?_, ?_⟩
    · simp [lookupIndex]
    · simp [lookupTable, hu]
  | some ds0 =>
    unfold set_project at h1
    rw [set_store_keeps hds] at h1
    simp only [hds] at h1
    cases hidx : lookupIndex ds0.project_names (some nm) with
    | none =>
      simp only [resolveProject, hidx, finishProject, insert_project, insert_trial] at h1
      injection h1 with h1a h1b
      injection h1b with h1b
      subst h1a
      subst h1b
      refine ⟨_, rfl, ?_, ?_⟩
      · simp [lookupIndex]
      · simp [lookupTable, hu]
    | some pid =>
      cases htab : lookupTable ds0.objects pid with
      | none =>
        simp only [resolveProject, hidx, htab] at h1
        cases h1
      | some e =>
        cases e with
        | proj p =>
          have hpid : p.uid = pid := lookupTable_wf (hwf ds0 hds) htab
          simp only [resolveProject, hidx, htab, finishProject, insert_trial] at h1
          injection h1 with h1a h1b
          injection h1b with h1b
          subst h1a
          subst h1b
          have hu2 : s.trial.uid ≠ pid := hpid ▸ hu
          refine ⟨_, rfl, ?_, ?_⟩
          · rw [hpid]
            exact hidx
          · simp [lookupTable, hu2, hpid, htab]
        | group g =>
          simp only [resolveProject, hidx, htab] at h1
          cases h1
        | trial t =>
          simp only [resolveProject, hidx, htab] at h1
          cases h1

/-- C2: for every client (with a well-formed storage and a trial uid distinct from the project uid, true of every reachable client) and every name, when a first set_project call with that name succeeds, a second call with the same name also succeeds and returns a project with the same uid: it finds the project of the first call through the name index of the storage instead of creating a new one. -/
theorem set_project_get_or_create (s : TrackClient) (nm : String)
    (tg1 tg2 d1 d2 : Option String) (s1 : TrackClient) (p1 : Project)
    (hwf : ∀ ds, s.data_store = some ds → StorageWf ds)
    (h1 : set_project s none (some nm) tg1 d1 = (s1, Except.ok p1))
    (hu : s.trial.uid ≠ p1.uid) :
    ∃ s2 p2, set_project s1 none (some nm) tg2 d2 = (s2, Except.ok p2) ∧
      p2.uid = p1.uid := by
  obtain ⟨ds1, hds, hidx, htab⟩ := set_project_post hwf h1 hu
  obtain ⟨s2, h2⟩ := set_project_finds hds hidx htab
  exact ⟨s2, p1, h2, rfl⟩

/-- Witness for C2: two set_project calls with the same name on a fresh client. -/
theorem set_project_get_or_create_witness :
    (∀ ds, wA.data_store = some ds → StorageWf ds) ∧
    set_project wA none (some "p") none none = (wA1, Except.ok wAp) ∧
    wA.trial.uid ≠ wAp.uid ∧
    ∃ s2 p2, set_project wA1 none (some "p") none none = (s2, Except.ok p2) ∧
      p2.uid = wAp.uid :=
  by
  refine ⟨(fun ds h => nomatch h), by decide, by decide, ?_⟩
  exact set_project_get_or_create wA "p" none none none none wA1 wAp
    (fun ds h => nomatch h) (by decide) (by decide)

end Track
